import Mathlib

/-!
Verification of `Week4-6-ShapeComplete.cpp` (the only source file of the
repository) against its natural-language specification.

The development is a shallow embedding: the C++ members that the claims
talk about are translated into Lean functions over explicit state records.
Machine integers (`UINT64` fence values, `int` indices) are modelled as
`Nat`; the values occurring here are tiny compared to the word size, and no
operation in the modelled code can overflow in practice, so no `% 2^w`
truncation is inserted.
-/

namespace ShapesApp

/-- Source line 27: `const int gNumFrameResources = 3;`. -/
def gNumFrameResources : Nat := 3

/-! ## Frame-resource synchronization state (`ShapesApp::Update` / `ShapesApp::Draw`)

The synchronization-relevant state of the app:
`fences i` models `mFrameResources[i]->Fence` (0 on the indices `0,1,2` at
start-up, as `FrameResource.Fence` is value-initialized to 0),
`currIndex` models `mCurrFrameResourceIndex`, `currentFence` models
`mCurrentFence`, `completed` models the last value the CPU knows the GPU
fence to have reached (the result of `mFence->GetCompletedValue()`,
raised by a completed `WaitForSingleObject`), and `queue` records the
commands enqueued on `mCommandQueue`, in order. -/

/-- A command enqueued on `mCommandQueue`: `ExecuteCommandLists` or
`Signal(mFence, v)`. -/
inductive QEvent where
  | executeList : QEvent
  | signal : Nat → QEvent
  deriving DecidableEq, Repr

/-- The fence-synchronization state of `ShapesApp`. -/
structure FrameSync where
  fences : Nat → Nat
  currIndex : Nat
  currentFence : Nat
  completed : Nat
  queue : List QEvent

/-- The state at the first call to `Update`: all slot fences are 0 (never
submitted), `mCurrFrameResourceIndex = 0`, `mCurrentFence` and the
completed value start equal (nothing from the render loop is in flight). -/
def initState : FrameSync :=
  { fences := fun _ => 0
    currIndex := 0
    currentFence := 0
    completed := 0
    queue := [] }

/-- Source lines 205-226, `ShapesApp::Update`, synchronization part:
advance `mCurrFrameResourceIndex` round-robin, and if the new slot's
stamped fence is nonzero and above the reported completed value, block
(`SetEventOnCompletion` + `WaitForSingleObject`) until the GPU fence
reaches the stamped value.  `reported` is the value returned by
`mFence->GetCompletedValue()`; the returned `Bool` records whether the
wait branch was taken.  After the (possible) wait, `completed` is the
least value the CPU knows the GPU to have reached. -/
def Update (s : FrameSync) (reported : Nat) : FrameSync × Bool :=
  let idx := (s.currIndex + 1) % gNumFrameResources
  if s.fences idx ≠ 0 ∧ reported < s.fences idx then
    ({ s with currIndex := idx, completed := s.fences idx }, true)
  else
    ({ s with currIndex := idx, completed := reported }, false)

/-- Source lines 228-295, `ShapesApp::Draw`, synchronization part:
enqueue the recorded command list (`ExecuteCommandLists`, line 282), stamp
the current frame resource with `++mCurrentFence` (line 289), and enqueue
`mCommandQueue->Signal(mFence, mCurrentFence)` (line 294). -/
def Draw (s : FrameSync) : FrameSync :=
  let newFence := s.currentFence + 1
  { s with
    currentFence := newFence
    fences := Function.update s.fences s.currIndex newFence
    queue := s.queue ++ [QEvent.executeList, QEvent.signal newFence] }

/-- One iteration of the render loop: `Update` then `Draw`
(`D3DApp::Run` calls them back to back each frame). -/
def frameStep (s : FrameSync) (reported : Nat) : FrameSync :=
  Draw (Update s reported).1

/-- The states reachable by the render loop.  The environment constraint
`reported ≤ s.currentFence` says the GPU fence cannot report a value
beyond the highest value ever passed to `Signal` (which is
`mCurrentFence`). -/
inductive Reach : FrameSync → Prop
  | init : Reach initState
  | step (s : FrameSync) (reported : Nat) :
      Reach s → reported ≤ s.currentFence → Reach (frameStep s reported)

/-- The inductive invariant of the render loop.  With `j = currIndex` and
`n = currentFence`: the slot just used holds stamp `n`, the next slot in
the ring holds `n - 2`, the slot after it `n - 1` (truncated subtraction:
slots not yet submitted hold 0); the known-completed value never exceeds
`n` and trails it by at most 3; every value ever signalled is at most
`n`. -/
def Inv (s : FrameSync) : Prop :=
  s.currIndex < gNumFrameResources ∧
  s.fences s.currIndex = s.currentFence ∧
  s.fences ((s.currIndex + 1) % gNumFrameResources) = s.currentFence - 2 ∧
  s.fences ((s.currIndex + 2) % gNumFrameResources) = s.currentFence - 1 ∧
  s.completed ≤ s.currentFence ∧
  s.currentFence ≤ s.completed + gNumFrameResources ∧
  (∀ v, QEvent.signal v ∈ s.queue → v ≤ s.currentFence)

lemma inv_init : Inv initState := by
  refine ⟨by decide, rfl, rfl, rfl, le_refl _, by decide, ?_⟩
  intro v hv
  simp [initState] at hv

lemma update_fences (s : FrameSync) (r : Nat) : (Update s r).1.fences = s.fences := by
  unfold Update
  dsimp only
  split <;> rfl

lemma update_currentFence (s : FrameSync) (r : Nat) :
    (Update s r).1.currentFence = s.currentFence := by
  unfold Update
  dsimp only
  split <;> rfl

lemma update_queue (s : FrameSync) (r : Nat) : (Update s r).1.queue = s.queue := by
  unfold Update
  dsimp only
  split <;> rfl

lemma update_currIndex (s : FrameSync) (r : Nat) :
    (Update s r).1.currIndex = (s.currIndex + 1) % gNumFrameResources := by
  unfold Update
  dsimp only
  split <;> rfl

lemma update_completed_ge (s : FrameSync) (r : Nat) :
    s.fences ((s.currIndex + 1) % gNumFrameResources) ≤ (Update s r).1.completed := by
  unfold Update
  dsimp only
  split
  · exact le_refl _
  · rename_i h
    dsimp only
    by_cases h0 : s.fences ((s.currIndex + 1) % gNumFrameResources) = 0
    · simp [h0]
    · have hnl : ¬ r < s.fences ((s.currIndex + 1) % gNumFrameResources) :=
        fun hlt => h ⟨h0, hlt⟩
      omega

lemma update_completed_le (s : FrameSync) (r : Nat)
    (hr : r ≤ s.currentFence)
    (hf : s.fences ((s.currIndex + 1) % gNumFrameResources) ≤ s.currentFence) :
    (Update s r).1.completed ≤ s.currentFence := by
  unfold Update
  dsimp only
  split
  · exact hf
  · exact hr

lemma inv_step (s : FrameSync) (r : Nat) (hs : Inv s) (hr : r ≤ s.currentFence) :
    Inv (frameStep s r) := by
  obtain ⟨hj, h0, h1, h2, hcle, hcge, hq⟩ := hs
  have hidx : (s.currIndex + 1) % gNumFrameResources < gNumFrameResources := by
    unfold gNumFrameResources
    omega
  have hcomp_ge := update_completed_ge s r
  have hcomp_le := update_completed_le s r hr (by rw [h1]; omega)
  set s' := (Update s r).1 with hs'
  have hf' : s'.fences = s.fences := update_fences s r
  have hn' : s'.currentFence = s.currentFence := update_currentFence s r
  have hq' : s'.queue = s.queue := update_queue s r
  have hi' : s'.currIndex = (s.currIndex + 1) % gNumFrameResources := update_currIndex s r
  unfold frameStep Draw
  rw [← hs']
  refine ⟨?_, ?_, ?_, ?_, ?_, ?_, ?_⟩
  · simpa [hi'] using hidx
  · simp [hi', Function.update_same]
  · have hne : (s'.currIndex + 1) % gNumFrameResources ≠ s'.currIndex := by
      rw [hi']
      unfold gNumFrameResources at *
      omega
    have harith : ((s.currIndex + 1) % gNumFrameResources + 1) % gNumFrameResources
        = (s.currIndex + 2) % gNumFrameResources := by
      unfold gNumFrameResources at *
      omega
    simp only [Function.update_noteq hne, hf', hi', harith, h2, hn']
    omega
  · have hne : (s'.currIndex + 2) % gNumFrameResources ≠ s'.currIndex := by
      rw [hi']
      unfold gNumFrameResources at *
      omega
    have harith : ((s.currIndex + 1) % gNumFrameResources + 2) % gNumFrameResources
        = s.currIndex := by
      unfold gNumFrameResources at *
      omega
    simp only [Function.update_noteq hne, hf', hi', harith, h0, hn']
    omega
  · simp only []
    omega
  · simp only []
    unfold gNumFrameResources at *
    omega
  · intro v hv
    simp only [hq', hn'] at hv ⊢
    rcases List.mem_append.mp hv with hv | hv
    · exact le_trans (hq v hv) (Nat.le_succ _)
    · simp at hv
      omega

lemma reach_inv (s : FrameSync) (h : Reach s) : Inv s := by
  induction h with
  | init => exact inv_init
  | step s r _ hr ih => exact inv_step s r ih hr

/-- Source lines 821-828, `ShapesApp::BuildFrameResources`: the loop body
runs once for each `i = 0 .. gNumFrameResources - 1` and pushes one
`FrameResource` onto `mFrameResources`.  Only the count matters for the
claims, so each resource is represented by its loop index. -/
def BuildFrameResources : List Nat := List.range gNumFrameResources

/-- Claim C1: a call to `Update` moves to slot `(i+1) % 3` and reuses it
only once the known GPU-completed fence value is at least the fence value
stamped on that slot (`Update ... .1.completed` is the completed value in
effect when `UpdateObjectCBs`/`UpdateMainPassCB` then write the slot's
constant buffers); a slot whose stamped fence is 0 is reused without
entering the wait branch, and the wait branch is skipped otherwise only
when the reported completed value already reached the stamp. -/
theorem update_reuses_slot_only_after_fence_wait (s : FrameSync) (r : Nat) :
    (Update s r).1.currIndex = (s.currIndex + 1) % gNumFrameResources ∧
    s.fences ((s.currIndex + 1) % gNumFrameResources) ≤ (Update s r).1.completed ∧
    (s.fences ((s.currIndex + 1) % gNumFrameResources) = 0 → (Update s r).2 = false) ∧
    ((Update s r).2 = false →
      s.fences ((s.currIndex + 1) % gNumFrameResources) = 0 ∨
      s.fences ((s.currIndex + 1) % gNumFrameResources) ≤ r) := by
  refine ⟨update_currIndex s r, update_completed_ge s r, ?_, ?_⟩
  · intro h0
    unfold Update
    dsimp only
    split
    · rename_i hcond
      exact absurd h0 hcond.1
    · rfl
  · intro hfalse
    by_cases h0 : s.fences ((s.currIndex + 1) % gNumFrameResources) = 0
    · exact Or.inl h0
    · right
      by_contra hlt
      unfold Update at hfalse
      dsimp only at hfalse
      rw [if_pos ⟨h0, by omega⟩] at hfalse
      simp at hfalse

/-- Claim C1 witness: concrete instance at a state with slot 1 stamped 5
and a reported completed value 2 (forcing the wait branch). -/
theorem update_reuses_slot_only_after_fence_wait_witness :
    (Update { initState with fences := Function.update initState.fences 1 5 } 2).1.currIndex
        = 1 ∧
    ({ initState with fences := Function.update initState.fences 1 5 } :
        FrameSync).fences 1 ≤
      (Update { initState with fences := Function.update initState.fences 1 5 } 2).1.completed :=
  ⟨(update_reuses_slot_only_after_fence_wait
      { initState with fences := Function.update initState.fences 1 5 } 2).1,
   (update_reuses_slot_only_after_fence_wait
      { initState with fences := Function.update initState.fences 1 5 } 2).2.1⟩

/-- Claim C2: in any reachable state, `Draw` stamps the current frame
resource with `mCurrentFence + 1`, which is strictly greater than the
stamp on every slot and than every fence value signalled by any earlier
submission, and it appends `ExecuteCommandLists` followed by
`Signal` of exactly that value to the command queue. -/
theorem draw_stamps_fresh_fence_and_signals (s : FrameSync) (h : Reach s) :
    (Draw s).fences s.currIndex = s.currentFence + 1 ∧
    (∀ i, i < gNumFrameResources → s.fences i < (Draw s).currentFence) ∧
    (∀ v, QEvent.signal v ∈ s.queue → v < (Draw s).currentFence) ∧
    (Draw s).queue = s.queue ++ [QEvent.executeList, QEvent.signal (s.currentFence + 1)] := by
  obtain ⟨hj, h0, h1, h2, hcle, hcge, hq⟩ := reach_inv s h
  refine ⟨by simp [Draw], ?_, ?_, by simp [Draw]⟩
  · intro i hi
    show s.fences i < s.currentFence + 1
    have : i = s.currIndex ∨ i = (s.currIndex + 1) % gNumFrameResources ∨
        i = (s.currIndex + 2) % gNumFrameResources := by
      unfold gNumFrameResources at *
      omega
    rcases this with hcase | hcase | hcase <;> rw [hcase] <;> omega
  · intro v hv
    show v < s.currentFence + 1
    exact Nat.lt_succ_of_le (hq v hv)

/-- Claim C2 witness: instance at the reachable state after one frame. -/
theorem draw_stamps_fresh_fence_and_signals_witness :
    Reach (frameStep initState 0) ∧
    ((Draw (frameStep initState 0)).fences (frameStep initState 0).currIndex
        = (frameStep initState 0).currentFence + 1 ∧
     (∀ i, i < gNumFrameResources →
        (frameStep initState 0).fences i < (Draw (frameStep initState 0)).currentFence) ∧
     (∀ v, QEvent.signal v ∈ (frameStep initState 0).queue →
        v < (Draw (frameStep initState 0)).currentFence) ∧
     (Draw (frameStep initState 0)).queue = (frameStep initState 0).queue ++
        [QEvent.executeList, QEvent.signal ((frameStep initState 0).currentFence + 1)]) :=
  have hreach : Reach (frameStep initState 0) :=
    Reach.step initState 0 Reach.init (Nat.le_refl 0)
  ⟨hreach, draw_stamps_fresh_fence_and_signals (frameStep initState 0) hreach⟩

/-- Claim C3: `BuildFrameResources` creates exactly 3 frame resources,
`Update` cycles through them round-robin (`(i + 1) % 3`), and in every
reachable state the number of submitted frames whose fence value exceeds
the known GPU-completed value is at most 3. -/
theorem three_frame_resources_round_robin_overlap (s : FrameSync) (r : Nat)
    (h : Reach s) :
    BuildFrameResources.length = 3 ∧
    (Update s r).1.currIndex = (s.currIndex + 1) % gNumFrameResources ∧
    s.currentFence - s.completed ≤ 3 := by
  obtain ⟨hj, h0, h1, h2, hcle, hcge, hq⟩ := reach_inv s h
  refine ⟨by decide, update_currIndex s r, ?_⟩
  unfold gNumFrameResources at hcge
  omega

/-- Claim C3 witness: instance at the reachable state after one frame. -/
theorem three_frame_resources_round_robin_overlap_witness :
    Reach (frameStep initState 0) ∧
    (BuildFrameResources.length = 3 ∧
     (Update (frameStep initState 0) 0).1.currIndex
        = ((frameStep initState 0).currIndex + 1) % gNumFrameResources ∧
     (frameStep initState 0).currentFence - (frameStep initState 0).completed ≤ 3) :=
  have hreach : Reach (frameStep initState 0) :=
    Reach.step initState 0 Reach.init (Nat.le_refl 0)
  ⟨hreach, three_frame_resources_round_robin_overlap (frameStep initState 0) 0 hreach⟩

/-! ## Camera orbit / zoom (`ShapesApp::OnMouseMove`, claim C6)

Float arithmetic is modelled over `ℚ`.  The clamping property at issue is
insensitive to rounding: `Clamp` returns one of its bounds or its input
unchanged, so the proved bounds hold for the float program as well. -/

/-- Modelled from the spec: `MathHelper::Clamp` from `Common/MathHelper.h`
(the file is not part of `src/`); the spec says the angle and radius are
"clamped", i.e. forced into the closed range `[low, high]`:
`x < low ? low : (x > high ? high : x)`. -/
def Clamp (x low high : ℚ) : ℚ :=
  if x < low then low else if high < x then high else x

/-- Modelled from the spec: `MathHelper::Pi` (`Common/MathHelper.h`, not in
`src/`), the float constant `3.1415926535f` used as the upper clamp bound
`MathHelper::Pi - 0.1f`. -/
def MathHelperPi : ℚ := 3.1415926535

/-- `XM_PI` from DirectXMath (external library), used in the initial
camera angles (`1.5f * XM_PI`, `0.2f * XM_PI`). -/
def XM_PI : ℚ := 3.141592654

/-- `XMConvertToRadians` from DirectXMath: `degrees * (XM_PI / 180)`. -/
def XMConvertToRadians (degrees : ℚ) : ℚ := degrees * (XM_PI / 180)

/-- The camera state: `mTheta`, `mPhi`, `mRadius` (source lines 127-129)
and `mLastMousePos` (line 131). -/
structure CameraState where
  theta : ℚ
  phi : ℚ
  radius : ℚ
  lastX : ℤ
  lastY : ℤ

/-- The initial camera state (source lines 127-129):
`mTheta = 1.5f * XM_PI`, `mPhi = 0.2f * XM_PI`, `mRadius = 15.0f`.
`mLastMousePos` is an uninitialized `POINT`, so its value is an arbitrary
parameter. -/
def initCameraState (lx ly : ℤ) : CameraState :=
  { theta := 1.5 * XM_PI, phi := 0.2 * XM_PI, radius := 15, lastX := lx, lastY := ly }

/-- One `WM_MOUSEMOVE` message: the `MK_LBUTTON` / `MK_RBUTTON` bits of
`btnState` and the cursor coordinates. -/
structure MouseEvent where
  left : Bool
  right : Bool
  x : ℤ
  y : ℤ

/-- Source lines 310-340, `ShapesApp::OnMouseMove`: left-drag orbits
(`mPhi` clamped to `[0.1, MathHelper::Pi - 0.1]`), right-drag zooms
(`mRadius` clamped to `[5, 150]`), and `mLastMousePos` is always
updated. -/
def OnMouseMove (s : CameraState) (e : MouseEvent) : CameraState :=
  if e.left then
    let dx := XMConvertToRadians (0.25 * ((e.x - s.lastX : ℤ) : ℚ))
    let dy := XMConvertToRadians (0.25 * ((e.y - s.lastY : ℤ) : ℚ))
    { s with
      theta := s.theta + dx
      phi := Clamp (s.phi + dy) 0.1 (MathHelperPi - 0.1)
      lastX := e.x, lastY := e.y }
  else if e.right then
    let dx := 0.05 * ((e.x - s.lastX : ℤ) : ℚ)
    let dy := 0.05 * ((e.y - s.lastY : ℤ) : ℚ)
    { s with
      radius := Clamp (s.radius + (dx - dy)) 5 150
      lastX := e.x, lastY := e.y }
  else
    { s with lastX := e.x, lastY := e.y }

/-- The camera bounds asserted by the spec: `mPhi` within the clamp bounds
`[0.1, MathHelper::Pi - 0.1]` and `mRadius` within `[5, 150]`. -/
def CameraInv (s : CameraState) : Prop :=
  0.1 ≤ s.phi ∧ s.phi ≤ MathHelperPi - 0.1 ∧ 5 ≤ s.radius ∧ s.radius ≤ 150

lemma clamp_le_high (x low high : ℚ) (h : low ≤ high) : Clamp x low high ≤ high := by
  unfold Clamp
  split
  · exact h
  · split
    · exact le_refl _
    · rename_i h1 h2
      exact le_of_not_lt h2

lemma low_le_clamp (x low high : ℚ) (h : low ≤ high) : low ≤ Clamp x low high := by
  unfold Clamp
  split
  · exact le_refl _
  · split
    · exact h
    · rename_i h1 h2
      exact le_of_not_lt h1

lemma cameraInv_move (s : CameraState) (e : MouseEvent) (hs : CameraInv s) :
    CameraInv (OnMouseMove s e) := by
  obtain ⟨h1, h2, h3, h4⟩ := hs
  have hb : (0.1 : ℚ) ≤ MathHelperPi - 0.1 := by norm_num [MathHelperPi]
  unfold OnMouseMove
  split
  · exact ⟨low_le_clamp _ _ _ hb, clamp_le_high _ _ _ hb, h3, h4⟩
  · split
    · exact ⟨h1, h2, low_le_clamp _ _ _ (by norm_num), clamp_le_high _ _ _ (by norm_num)⟩
    · exact ⟨h1, h2, h3, h4⟩

lemma cameraInv_run (es : List MouseEvent) :
    ∀ s : CameraState, CameraInv s → CameraInv (es.foldl OnMouseMove s) := by
  induction es with
  | nil => intro s hs; exact hs
  | cons e es ih => intro s hs; exact ih _ (cameraInv_move s e hs)

/-- Claim C6: starting from the initial camera state
(`mPhi = 0.2·π`, `mRadius = 15`, with arbitrary initial
`mLastMousePos`), after any sequence of `OnMouseMove` calls with
arbitrary button states and coordinates, `mPhi` stays within the clamp
bounds `[0.1, MathHelper::Pi - 0.1]` and `mRadius` within `[5, 150]`. -/
theorem camera_phi_radius_clamped (es : List MouseEvent) (lx ly : ℤ) :
    0.1 ≤ (es.foldl OnMouseMove (initCameraState lx ly)).phi ∧
    (es.foldl OnMouseMove (initCameraState lx ly)).phi ≤ MathHelperPi - 0.1 ∧
    5 ≤ (es.foldl OnMouseMove (initCameraState lx ly)).radius ∧
    (es.foldl OnMouseMove (initCameraState lx ly)).radius ≤ 150 :=
  cameraInv_run es (initCameraState lx ly)
    ⟨by norm_num [initCameraState, XM_PI, MathHelperPi],
     by norm_num [initCameraState, XM_PI, MathHelperPi],
     by norm_num [initCameraState],
     by norm_num [initCameraState]⟩

/-! ## Wireframe toggle (`ShapesApp::OnKeyboardInput` / `Draw`, claim C7) -/

/-- Source lines 342-348, `ShapesApp::OnKeyboardInput`: `mIsWireframe` is
set each frame from the polled state of key '1'
(`GetAsyncKeyState('1') & 0x8000`); the previous value is not consulted. -/
def OnKeyboardInput (key1Held : Bool) : Bool := key1Held

/-- The two pipeline states built in `BuildPSOs`:
`mPSOs["opaque"]` and `mPSOs["opaque_wireframe"]`. -/
inductive PSOKind where
  | solidFill : PSOKind
  | wireframeFill : PSOKind
  deriving DecidableEq, Repr

/-- Source lines 238-245: `Draw` resets the command list with the
wireframe pipeline state exactly when `mIsWireframe` holds. -/
def drawSelectedPSO (isWireframe : Bool) : PSOKind :=
  if isWireframe then PSOKind.wireframeFill else PSOKind.solidFill

/-- The pipeline state used on each frame of a run whose per-frame polled
key-'1' states are `keys`: each frame's `Update` polls the key
(`OnKeyboardInput`) and the following `Draw` selects the PSO from the
resulting `mIsWireframe`. -/
def psoTrace (keys : List Bool) : List PSOKind :=
  keys.map (fun k => drawSelectedPSO (OnKeyboardInput k))

/-- Claim C7: `mIsWireframe` after `Update` equals the polled key state of
that frame alone, and the PSO drawn with on frame `t` is the wireframe
one exactly when '1' was held at frame `t`'s poll — in particular the
first frame the key is released draws solid again. -/
theorem wireframe_follows_polled_key (keys : List Bool) (t : Nat)
    (ht : t < keys.length) :
    (∀ b : Bool, OnKeyboardInput b = b) ∧
    ((psoTrace keys).getD t PSOKind.solidFill = PSOKind.wireframeFill ↔
      keys.getD t false = true) ∧
    (keys.getD t false = false →
      (psoTrace keys).getD t PSOKind.solidFill = PSOKind.solidFill) := by
  have hmap : (psoTrace keys).getD t PSOKind.solidFill
      = drawSelectedPSO (OnKeyboardInput (keys.getD t false)) := by
    unfold psoTrace
    rw [List.getD_eq_getElem?_getD, List.getElem?_map,
        List.getElem?_eq_getElem ht]
    simp [List.getD_eq_getElem?_getD, List.getElem?_eq_getElem ht]
  refine ⟨fun b => rfl, ?_, ?_⟩
  · rw [hmap]
    cases hk : keys.getD t false <;> simp [OnKeyboardInput, drawSelectedPSO]
  · intro hk
    rw [hmap, hk]
    rfl

/-- Claim C7 witness: a two-frame run holding '1' on the first frame and
releasing it on the second. -/
theorem wireframe_follows_polled_key_witness :
    1 < ([true, false] : List Bool).length ∧
    ((∀ b : Bool, OnKeyboardInput b = b) ∧
     ((psoTrace [true, false]).getD 1 PSOKind.solidFill = PSOKind.wireframeFill ↔
       ([true, false] : List Bool).getD 1 false = true) ∧
     (([true, false] : List Bool).getD 1 false = false →
       (psoTrace [true, false]).getD 1 PSOKind.solidFill = PSOKind.solidFill)) :=
  ⟨by decide, wireframe_follows_polled_key [true, false] 1 (by decide)⟩

/-! ## Shared geometry buffer (`ShapesApp::BuildShapeGeometry`, claims C4, C5)

`GeometryGenerator` lives in `Common/` and is not part of `src/`, so the
ten generated meshes are abstract data: a mesh is its vertex list and its
index list.  Everything `BuildShapeGeometry` does with them — the offset
bookkeeping, the copy loops, the submesh ranges — is translated exactly,
for arbitrary meshes. -/

/-- A `GeometryGenerator::MeshData`: its `Vertices` and its `Indices32`
(inserted into the shared buffer as the 16-bit `GetIndices16()` values;
the numeric values are what matters here, so indices are `Nat`). -/
structure MeshData (V : Type) where
  Vertices : List V
  Indices32 : List Nat

/-- The ten meshes generated at the top of `BuildShapeGeometry`
(source lines 541-550). -/
structure TenMeshes (V : Type) where
  box : MeshData V
  grid : MeshData V
  sphere : MeshData V
  cylinder : MeshData V
  cone : MeshData V
  torus : MeshData V
  pyramid : MeshData V
  wedge : MeshData V
  diamond : MeshData V
  triPrism : MeshData V

variable {V : Type}

/-! Cached vertex offsets, source lines 557-566. -/

def boxVertexOffset : Nat := 0
def gridVertexOffset (m : TenMeshes V) : Nat := m.box.Vertices.length
def sphereVertexOffset (m : TenMeshes V) : Nat := gridVertexOffset m + m.grid.Vertices.length
def cylinderVertexOffset (m : TenMeshes V) : Nat := sphereVertexOffset m + m.sphere.Vertices.length
def coneVertexOffset (m : TenMeshes V) : Nat := cylinderVertexOffset m + m.cylinder.Vertices.length
def torusVertexOffset (m : TenMeshes V) : Nat := coneVertexOffset m + m.cone.Vertices.length
def pyramidVertexOffset (m : TenMeshes V) : Nat := torusVertexOffset m + m.torus.Vertices.length
def wedgeVertexOffset (m : TenMeshes V) : Nat := pyramidVertexOffset m + m.pyramid.Vertices.length
def diamondVertexOffset (m : TenMeshes V) : Nat := wedgeVertexOffset m + m.wedge.Vertices.length
def triPrismVertexOffset (m : TenMeshes V) : Nat := diamondVertexOffset m + m.diamond.Vertices.length

/-! Cached index offsets, source lines 570-579. -/

def boxIndexOffset : Nat := 0
def gridIndexOffset (m : TenMeshes V) : Nat := m.box.Indices32.length
def sphereIndexOffset (m : TenMeshes V) : Nat := gridIndexOffset m + m.grid.Indices32.length
def cylinderIndexOffset (m : TenMeshes V) : Nat := sphereIndexOffset m + m.sphere.Indices32.length
def coneIndexOffset (m : TenMeshes V) : Nat := cylinderIndexOffset m + m.cylinder.Indices32.length
def torusIndexOffset (m : TenMeshes V) : Nat := coneIndexOffset m + m.cone.Indices32.length
def pyramidIndexOffset (m : TenMeshes V) : Nat := torusIndexOffset m + m.torus.Indices32.length
def wedgeIndexOffset (m : TenMeshes V) : Nat := pyramidIndexOffset m + m.pyramid.Indices32.length
def diamondIndexOffset (m : TenMeshes V) : Nat := wedgeIndexOffset m + m.wedge.Indices32.length
def triPrismIndexOffset (m : TenMeshes V) : Nat := diamondIndexOffset m + m.diamond.Indices32.length

/-- Source lines 639-649: `totalVertexCount` is the sum of the ten vertex
counts, and is the declared length of the shared `vertices` array
(line 653). -/
def totalVertexCount (m : TenMeshes V) : Nat :=
  m.box.Vertices.length +
  m.grid.Vertices.length +
  m.sphere.Vertices.length +
  m.cylinder.Vertices.length +
  m.cone.Vertices.length +
  m.torus.Vertices.length +
  m.pyramid.Vertices.length +
  m.wedge.Vertices.length +
  m.diamond.Vertices.length +
  m.triPrism.Vertices.length

/-- Source lines 655-721: the ten copy loops.  Each loop writes mesh
vertex `i` to `vertices[k]` and increments the running index `k`; the
result is the final value of `k` together with the list of
`(position, vertex)` writes in program order (`List.enumFrom k l` is the
list `[(k, l[0]), (k+1, l[1]), ...]`). -/
def vertexWrites (m : TenMeshes V) : Nat × List (Nat × V) :=
  let k0 := 0
  let k1 := k0 + m.box.Vertices.length
  let k2 := k1 + m.grid.Vertices.length
  let k3 := k2 + m.sphere.Vertices.length
  let k4 := k3 + m.cylinder.Vertices.length
  let k5 := k4 + m.cone.Vertices.length
  let k6 := k5 + m.torus.Vertices.length
  let k7 := k6 + m.pyramid.Vertices.length
  let k8 := k7 + m.wedge.Vertices.length
  let k9 := k8 + m.diamond.Vertices.length
  let k10 := k9 + m.triPrism.Vertices.length
  (k10,
    List.enumFrom k0 m.box.Vertices ++
    List.enumFrom k1 m.grid.Vertices ++
    List.enumFrom k2 m.sphere.Vertices ++
    List.enumFrom k3 m.cylinder.Vertices ++
    List.enumFrom k4 m.cone.Vertices ++
    List.enumFrom k5 m.torus.Vertices ++
    List.enumFrom k6 m.pyramid.Vertices ++
    List.enumFrom k7 m.wedge.Vertices ++
    List.enumFrom k8 m.diamond.Vertices ++
    List.enumFrom k9 m.triPrism.Vertices)

/-- A `SubmeshGeometry` as filled in at source lines 585-633.
(`BaseVertexLocation` is a C++ `int` holding a vertex offset, always
nonnegative here.) -/
structure SubmeshGeometry where
  IndexCount : Nat
  StartIndexLocation : Nat
  BaseVertexLocation : Nat
  deriving DecidableEq, Repr

def boxSubmesh (m : TenMeshes V) : SubmeshGeometry :=
  ⟨m.box.Indices32.length, boxIndexOffset, boxVertexOffset⟩
def gridSubmesh (m : TenMeshes V) : SubmeshGeometry :=
  ⟨m.grid.Indices32.length, gridIndexOffset m, gridVertexOffset m⟩
def sphereSubmesh (m : TenMeshes V) : SubmeshGeometry :=
  ⟨m.sphere.Indices32.length, sphereIndexOffset m, sphereVertexOffset m⟩
def cylinderSubmesh (m : TenMeshes V) : SubmeshGeometry :=
  ⟨m.cylinder.Indices32.length, cylinderIndexOffset m, cylinderVertexOffset m⟩
def coneSubmesh (m : TenMeshes V) : SubmeshGeometry :=
  ⟨m.cone.Indices32.length, coneIndexOffset m, coneVertexOffset m⟩
def torusSubmesh (m : TenMeshes V) : SubmeshGeometry :=
  ⟨m.torus.Indices32.length, torusIndexOffset m, torusVertexOffset m⟩
def pyramidSubmesh (m : TenMeshes V) : SubmeshGeometry :=
  ⟨m.pyramid.Indices32.length, pyramidIndexOffset m, pyramidVertexOffset m⟩
def wedgeSubmesh (m : TenMeshes V) : SubmeshGeometry :=
  ⟨m.wedge.Indices32.length, wedgeIndexOffset m, wedgeVertexOffset m⟩
def diamondSubmesh (m : TenMeshes V) : SubmeshGeometry :=
  ⟨m.diamond.Indices32.length, diamondIndexOffset m, diamondVertexOffset m⟩
def triPrismSubmesh (m : TenMeshes V) : SubmeshGeometry :=
  ⟨m.triPrism.Indices32.length, triPrismIndexOffset m, triPrismVertexOffset m⟩

/-- Source lines 724-734: the concatenated index buffer. -/
def allIndices (m : TenMeshes V) : List Nat :=
  m.box.Indices32 ++
  m.grid.Indices32 ++
  m.sphere.Indices32 ++
  m.cylinder.Indices32 ++
  m.cone.Indices32 ++
  m.torus.Indices32 ++
  m.pyramid.Indices32 ++
  m.wedge.Indices32 ++
  m.diamond.Indices32 ++
  m.triPrism.Indices32

lemma enumFrom_fst (k : Nat) (l : List V) :
    (List.enumFrom k l).map Prod.fst = List.range' k l.length := by
  induction l generalizing k with
  | nil => rfl
  | cons a l ih => simp [List.enumFrom, List.range'_succ, ih]

lemma range'_concat (s m n : Nat) :
    List.range' s m ++ List.range' (s + m) n = List.range' s (m + n) := by
  rw [List.range'_append_1, Nat.add_comm]

/-- Claim C4: the sum of the ten vertex counts equals `totalVertexCount`,
the declared length of the shared vertex array; the ten copy loops leave
the running index `k` equal to `totalVertexCount` and together write
positions `0 .. totalVertexCount - 1` each exactly once (in order); and
each mesh's vertices are written starting at its cached vertex offset. -/
theorem copy_loops_fill_vertex_array (m : TenMeshes V) :
    (vertexWrites m).1 = totalVertexCount m ∧
    (vertexWrites m).2.map Prod.fst = List.range (totalVertexCount m) ∧
    (vertexWrites m).2 =
      List.enumFrom boxVertexOffset m.box.Vertices ++
      List.enumFrom (gridVertexOffset m) m.grid.Vertices ++
      List.enumFrom (sphereVertexOffset m) m.sphere.Vertices ++
      List.enumFrom (cylinderVertexOffset m) m.cylinder.Vertices ++
      List.enumFrom (coneVertexOffset m) m.cone.Vertices ++
      List.enumFrom (torusVertexOffset m) m.torus.Vertices ++
      List.enumFrom (pyramidVertexOffset m) m.pyramid.Vertices ++
      List.enumFrom (wedgeVertexOffset m) m.wedge.Vertices ++
      List.enumFrom (diamondVertexOffset m) m.diamond.Vertices ++
      List.enumFrom (triPrismVertexOffset m) m.triPrism.Vertices := by
  refine ⟨?_, ?_, ?_⟩
  · unfold vertexWrites totalVertexCount
    dsimp only
    omega
  · unfold vertexWrites totalVertexCount
    dsimp only
    simp only [List.map_append, enumFrom_fst, List.append_assoc]
    repeat rw [range'_concat]
    rw [List.range_eq_range']
    congr 1
    omega
  · simp [vertexWrites, boxVertexOffset, gridVertexOffset, sphereVertexOffset,
      cylinderVertexOffset, coneVertexOffset, torusVertexOffset, pyramidVertexOffset,
      wedgeVertexOffset, diamondVertexOffset, triPrismVertexOffset]

/-- Modelled from the spec: `GeometryGenerator` (in `Common/`, not under
`src/`) produces meshes whose indices refer to that mesh's own vertices,
i.e. every index value is below the mesh's vertex count.  This is the
well-formedness the spec's "each named draw range falls entirely within
the shared index/vertex buffers" relies on for the generated meshes. -/
def WellFormed (d : MeshData V) : Prop :=
  ∀ x ∈ d.Indices32, x < d.Vertices.length

/-- The containment claimed for one submesh: its half-open index range
fits in the concatenated index buffer, and `BaseVertexLocation` plus any
index value drawn from that range is a valid vertex-buffer position. -/
def submeshOK (sm : SubmeshGeometry) (inds : List Nat) (numVerts : Nat) : Prop :=
  sm.StartIndexLocation + sm.IndexCount ≤ inds.length ∧
  ∀ x ∈ (inds.drop sm.StartIndexLocation).take sm.IndexCount,
    sm.BaseVertexLocation + x < numVerts

lemma submeshOK_of (sm : SubmeshGeometry) (inds mid pre post : List Nat) (nv : Nat)
    (hform : inds = pre ++ (mid ++ post))
    (hst : sm.StartIndexLocation = pre.length)
    (hcnt : sm.IndexCount = mid.length)
    (hbound : ∀ x ∈ mid, sm.BaseVertexLocation + x < nv) :
    submeshOK sm inds nv := by
  constructor
  · rw [hform, hst, hcnt]
    simp only [List.length_append]
    omega
  · intro x hx
    have hext : ((inds.drop sm.StartIndexLocation).take sm.IndexCount) = mid := by
      rw [hform, hst, hcnt, List.drop_left, List.take_left]
    rw [hext] at hx
    exact hbound x hx

/-- Claim C5: for each of the ten named submeshes recorded in `DrawArgs`,
the half-open range `[StartIndexLocation, StartIndexLocation + IndexCount)`
lies within the concatenated index buffer, and `BaseVertexLocation` plus
every index value drawn from that range lies within the concatenated
vertex buffer — given that each generated mesh indexes only its own
vertices (`WellFormed`, modelled from the spec as `GeometryGenerator` is
not under `src/`). -/
theorem draw_ranges_within_shared_buffers (m : TenMeshes V)
    (hbox : WellFormed m.box) (hgrid : WellFormed m.grid)
    (hsphere : WellFormed m.sphere) (hcylinder : WellFormed m.cylinder)
    (hcone : WellFormed m.cone) (htorus : WellFormed m.torus)
    (hpyramid : WellFormed m.pyramid) (hwedge : WellFormed m.wedge)
    (hdiamond : WellFormed m.diamond) (htriPrism : WellFormed m.triPrism) :
    submeshOK (boxSubmesh m) (allIndices m) (totalVertexCount m) ∧
    submeshOK (gridSubmesh m) (allIndices m) (totalVertexCount m) ∧
    submeshOK (sphereSubmesh m) (allIndices m) (totalVertexCount m) ∧
    submeshOK (cylinderSubmesh m) (allIndices m) (totalVertexCount m) ∧
    submeshOK (coneSubmesh m) (allIndices m) (totalVertexCount m) ∧
    submeshOK (torusSubmesh m) (allIndices m) (totalVertexCount m) ∧
    submeshOK (pyramidSubmesh m) (allIndices m) (totalVertexCount m) ∧
    submeshOK (wedgeSubmesh m) (allIndices m) (totalVertexCount m) ∧
    submeshOK (diamondSubmesh m) (allIndices m) (totalVertexCount m) ∧
    submeshOK (triPrismSubmesh m) (allIndices m) (totalVertexCount m) := by
  refine ⟨?_, ?_, ?_, ?_, ?_, ?_, ?_, ?_, ?_, ?_⟩
  · refine submeshOK_of (boxSubmesh m) (allIndices m) m.box.Indices32 []
      (m.grid.Indices32 ++ m.sphere.Indices32 ++ m.cylinder.Indices32 ++
        m.cone.Indices32 ++ m.torus.Indices32 ++ m.pyramid.Indices32 ++
        m.wedge.Indices32 ++ m.diamond.Indices32 ++ m.triPrism.Indices32) (totalVertexCount m)
      (by simp [allIndices, List.append_assoc])
      (by simp [boxSubmesh, boxIndexOffset]) rfl ?_
    intro x hx
    have h := hbox x hx
    simp only [boxSubmesh, boxVertexOffset, totalVertexCount]
    omega
  · refine submeshOK_of (gridSubmesh m) (allIndices m) m.grid.Indices32 m.box.Indices32
      (m.sphere.Indices32 ++ m.cylinder.Indices32 ++
        m.cone.Indices32 ++ m.torus.Indices32 ++ m.pyramid.Indices32 ++
        m.wedge.Indices32 ++ m.diamond.Indices32 ++ m.triPrism.Indices32) (totalVertexCount m)
      (by simp [allIndices, List.append_assoc])
      (by simp [gridSubmesh, gridIndexOffset]) rfl ?_
    intro x hx
    have h := hgrid x hx
    simp only [gridSubmesh, gridVertexOffset, totalVertexCount]
    omega
  · refine submeshOK_of (sphereSubmesh m) (allIndices m) m.sphere.Indices32
      (m.box.Indices32 ++ m.grid.Indices32)
      (m.cylinder.Indices32 ++
        m.cone.Indices32 ++ m.torus.Indices32 ++ m.pyramid.Indices32 ++
        m.wedge.Indices32 ++ m.diamond.Indices32 ++ m.triPrism.Indices32) (totalVertexCount m)
      (by simp [allIndices, List.append_assoc])
      (by simp [sphereSubmesh, sphereIndexOffset, gridIndexOffset] <;> omega) rfl ?_
    intro x hx
    have h := hsphere x hx
    simp only [sphereSubmesh, sphereVertexOffset, gridVertexOffset, totalVertexCount]
    omega
  · refine submeshOK_of (cylinderSubmesh m) (allIndices m) m.cylinder.Indices32
      (m.box.Indices32 ++ m.grid.Indices32 ++ m.sphere.Indices32)
      (m.cone.Indices32 ++ m.torus.Indices32 ++ m.pyramid.Indices32 ++
        m.wedge.Indices32 ++ m.diamond.Indices32 ++ m.triPrism.Indices32) (totalVertexCount m)
      (by simp [allIndices, List.append_assoc])
      (by simp [cylinderSubmesh, cylinderIndexOffset, sphereIndexOffset, gridIndexOffset] <;> omega) rfl ?_
    intro x hx
    have h := hcylinder x hx
    simp only [cylinderSubmesh, cylinderVertexOffset, sphereVertexOffset, gridVertexOffset,
      totalVertexCount]
    omega
  · refine submeshOK_of (coneSubmesh m) (allIndices m) m.cone.Indices32
      (m.box.Indices32 ++ m.grid.Indices32 ++ m.sphere.Indices32 ++ m.cylinder.Indices32)
      (m.torus.Indices32 ++ m.pyramid.Indices32 ++
        m.wedge.Indices32 ++ m.diamond.Indices32 ++ m.triPrism.Indices32) (totalVertexCount m)
      (by simp [allIndices, List.append_assoc])
      (by simp [coneSubmesh, coneIndexOffset, cylinderIndexOffset, sphereIndexOffset,
        gridIndexOffset] <;> omega) rfl ?_
    intro x hx
    have h := hcone x hx
    simp only [coneSubmesh, coneVertexOffset, cylinderVertexOffset, sphereVertexOffset,
      gridVertexOffset, totalVertexCount]
    omega
  · refine submeshOK_of (torusSubmesh m) (allIndices m) m.torus.Indices32
      (m.box.Indices32 ++ m.grid.Indices32 ++ m.sphere.Indices32 ++ m.cylinder.Indices32 ++
        m.cone.Indices32)
      (m.pyramid.Indices32 ++
        m.wedge.Indices32 ++ m.diamond.Indices32 ++ m.triPrism.Indices32) (totalVertexCount m)
      (by simp [allIndices, List.append_assoc])
      (by simp [torusSubmesh, torusIndexOffset, coneIndexOffset, cylinderIndexOffset,
        sphereIndexOffset, gridIndexOffset] <;> omega) rfl ?_
    intro x hx
    have h := htorus x hx
    simp only [torusSubmesh, torusVertexOffset, coneVertexOffset, cylinderVertexOffset,
      sphereVertexOffset, gridVertexOffset, totalVertexCount]
    omega
  · refine submeshOK_of (pyramidSubmesh m) (allIndices m) m.pyramid.Indices32
      (m.box.Indices32 ++ m.grid.Indices32 ++ m.sphere.Indices32 ++ m.cylinder.Indices32 ++
        m.cone.Indices32 ++ m.torus.Indices32)
      (m.wedge.Indices32 ++ m.diamond.Indices32 ++ m.triPrism.Indices32) (totalVertexCount m)
      (by simp [allIndices, List.append_assoc])
      (by simp [pyramidSubmesh, pyramidIndexOffset, torusIndexOffset, coneIndexOffset,
        cylinderIndexOffset, sphereIndexOffset, gridIndexOffset] <;> omega) rfl ?_
    intro x hx
    have h := hpyramid x hx
    simp only [pyramidSubmesh, pyramidVertexOffset, torusVertexOffset, coneVertexOffset,
      cylinderVertexOffset, sphereVertexOffset, gridVertexOffset, totalVertexCount]
    omega
  · refine submeshOK_of (wedgeSubmesh m) (allIndices m) m.wedge.Indices32
      (m.box.Indices32 ++ m.grid.Indices32 ++ m.sphere.Indices32 ++ m.cylinder.Indices32 ++
        m.cone.Indices32 ++ m.torus.Indices32 ++ m.pyramid.Indices32)
      (m.diamond.Indices32 ++ m.triPrism.Indices32) (totalVertexCount m)
      (by simp [allIndices, List.append_assoc])
      (by simp [wedgeSubmesh, wedgeIndexOffset, pyramidIndexOffset, torusIndexOffset,
        coneIndexOffset, cylinderIndexOffset, sphereIndexOffset, gridIndexOffset] <;> omega) rfl ?_
    intro x hx
    have h := hwedge x hx
    simp only [wedgeSubmesh, wedgeVertexOffset, pyramidVertexOffset, torusVertexOffset,
      coneVertexOffset, cylinderVertexOffset, sphereVertexOffset, gridVertexOffset,
      totalVertexCount]
    omega
  · refine submeshOK_of (diamondSubmesh m) (allIndices m) m.diamond.Indices32
      (m.box.Indices32 ++ m.grid.Indices32 ++ m.sphere.Indices32 ++ m.cylinder.Indices32 ++
        m.cone.Indices32 ++ m.torus.Indices32 ++ m.pyramid.Indices32 ++ m.wedge.Indices32)
      m.triPrism.Indices32 _
      (by simp [allIndices, List.append_assoc])
      (by simp [diamondSubmesh, diamondIndexOffset, wedgeIndexOffset, pyramidIndexOffset,
        torusIndexOffset, coneIndexOffset, cylinderIndexOffset, sphereIndexOffset,
        gridIndexOffset] <;> omega) rfl ?_
    intro x hx
    have h := hdiamond x hx
    simp only [diamondSubmesh, diamondVertexOffset, wedgeVertexOffset, pyramidVertexOffset,
      torusVertexOffset, coneVertexOffset, cylinderVertexOffset, sphereVertexOffset,
      gridVertexOffset, totalVertexCount]
    omega
  · refine submeshOK_of (triPrismSubmesh m) (allIndices m) m.triPrism.Indices32
      (m.box.Indices32 ++ m.grid.Indices32 ++ m.sphere.Indices32 ++ m.cylinder.Indices32 ++
        m.cone.Indices32 ++ m.torus.Indices32 ++ m.pyramid.Indices32 ++ m.wedge.Indices32 ++
        m.diamond.Indices32)
      [] (totalVertexCount m)
      (by simp [allIndices, List.append_assoc])
      (by simp [triPrismSubmesh, triPrismIndexOffset, diamondIndexOffset, wedgeIndexOffset,
        pyramidIndexOffset, torusIndexOffset, coneIndexOffset, cylinderIndexOffset,
        sphereIndexOffset, gridIndexOffset] <;> omega) rfl ?_
    intro x hx
    have h := htriPrism x hx
    simp only [triPrismSubmesh, triPrismVertexOffset, diamondVertexOffset, wedgeVertexOffset,
      pyramidVertexOffset, torusVertexOffset, coneVertexOffset, cylinderVertexOffset,
      sphereVertexOffset, gridVertexOffset, totalVertexCount]
    omega

/-- A concrete ten-mesh instance (one vertex, one index each) used to
witness the submesh-containment theorem. -/
def sampleMeshes : TenMeshes Unit :=
  { box := ⟨[()], [0]⟩, grid := ⟨[()], [0]⟩, sphere := ⟨[()], [0]⟩
    cylinder := ⟨[()], [0]⟩, cone := ⟨[()], [0]⟩, torus := ⟨[()], [0]⟩
    pyramid := ⟨[()], [0]⟩, wedge := ⟨[()], [0]⟩, diamond := ⟨[()], [0]⟩
    triPrism := ⟨[()], [0]⟩ }

/-- Claim C5 witness: the containment theorem applied to `sampleMeshes`. -/
theorem draw_ranges_within_shared_buffers_witness :
    (WellFormed sampleMeshes.box ∧ WellFormed sampleMeshes.grid ∧
     WellFormed sampleMeshes.sphere ∧ WellFormed sampleMeshes.cylinder ∧
     WellFormed sampleMeshes.cone ∧ WellFormed sampleMeshes.torus ∧
     WellFormed sampleMeshes.pyramid ∧ WellFormed sampleMeshes.wedge ∧
     WellFormed sampleMeshes.diamond ∧ WellFormed sampleMeshes.triPrism) ∧
    (submeshOK (boxSubmesh sampleMeshes) (allIndices sampleMeshes)
        (totalVertexCount sampleMeshes) ∧
     submeshOK (gridSubmesh sampleMeshes) (allIndices sampleMeshes)
        (totalVertexCount sampleMeshes) ∧
     submeshOK (sphereSubmesh sampleMeshes) (allIndices sampleMeshes)
        (totalVertexCount sampleMeshes) ∧
     submeshOK (cylinderSubmesh sampleMeshes) (allIndices sampleMeshes)
        (totalVertexCount sampleMeshes) ∧
     submeshOK (coneSubmesh sampleMeshes) (allIndices sampleMeshes)
        (totalVertexCount sampleMeshes) ∧
     submeshOK (torusSubmesh sampleMeshes) (allIndices sampleMeshes)
        (totalVertexCount sampleMeshes) ∧
     submeshOK (pyramidSubmesh sampleMeshes) (allIndices sampleMeshes)
        (totalVertexCount sampleMeshes) ∧
     submeshOK (wedgeSubmesh sampleMeshes) (allIndices sampleMeshes)
        (totalVertexCount sampleMeshes) ∧
     submeshOK (diamondSubmesh sampleMeshes) (allIndices sampleMeshes)
        (totalVertexCount sampleMeshes) ∧
     submeshOK (triPrismSubmesh sampleMeshes) (allIndices sampleMeshes)
        (totalVertexCount sampleMeshes)) :=
  have h1 : WellFormed sampleMeshes.box := by unfold WellFormed; decide
  have h2 : WellFormed sampleMeshes.grid := by unfold WellFormed; decide
  have h3 : WellFormed sampleMeshes.sphere := by unfold WellFormed; decide
  have h4 : WellFormed sampleMeshes.cylinder := by unfold WellFormed; decide
  have h5 : WellFormed sampleMeshes.cone := by unfold WellFormed; decide
  have h6 : WellFormed sampleMeshes.torus := by unfold WellFormed; decide
  have h7 : WellFormed sampleMeshes.pyramid := by unfold WellFormed; decide
  have h8 : WellFormed sampleMeshes.wedge := by unfold WellFormed; decide
  have h9 : WellFormed sampleMeshes.diamond := by unfold WellFormed; decide
  have h10 : WellFormed sampleMeshes.triPrism := by unfold WellFormed; decide
  ⟨⟨h1, h2, h3, h4, h5, h6, h7, h8, h9, h10⟩,
   draw_ranges_within_shared_buffers sampleMeshes h1 h2 h3 h4 h5 h6 h7 h8 h9 h10⟩

/-! ## Render items, descriptor heap and object constant buffers
(`BuildRenderItems`, `BuildDescriptorHeaps`, `BuildConstantBufferViews`,
`DrawRenderItems`, `UpdateObjectCBs`; claims C9, C10)

The world matrices and geometry keys of the render items do not affect
the indexing logic, so the build is modelled over the list `ws` of world
transforms of the items in creation order (the grid item first, then each
`AddItem` call, including those made inside the float-stepped teeth
loops); `W` is the abstract type of world matrices. -/

variable {W : Type}

/-- One `RenderItem` (source lines 31-58), restricted to the fields the
claims use.  `NumFramesDirty` is a C++ `int` initialized to
`gNumFrameResources` and only ever decremented from positive values, so
`Nat` is faithful. -/
structure RenderItemData (W : Type) where
  World : W
  NumFramesDirty : Nat
  ObjCBIndex : Nat

/-- One step of `BuildRenderItems` (source lines 831-861): each created
item receives `ObjCBIndex = objCBIndex++` (the running counter) and the
default `NumFramesDirty = gNumFrameResources`, and is pushed onto
`mAllRitems`. -/
def addRenderItem (acc : Nat × List (RenderItemData W)) (w : W) :
    Nat × List (RenderItemData W) :=
  (acc.1 + 1, acc.2 ++ [{ World := w, NumFramesDirty := gNumFrameResources, ObjCBIndex := acc.1 }])

/-- `ShapesApp::BuildRenderItems` (source lines 831-1156): the counter
starts at 0 and every item creation runs `addRenderItem`. -/
def BuildRenderItems (ws : List W) : List (RenderItemData W) :=
  (ws.foldl addRenderItem (0, [])).2

/-- The shape of a partially-processed item list: the items for `ws`
numbered consecutively from `k`, all with dirty counter `d`. -/
def itemsFrom (k : Nat) (ws : List W) (d : Nat) : List (RenderItemData W) :=
  (List.enumFrom k ws).map (fun p => { World := p.2, NumFramesDirty := d, ObjCBIndex := p.1 })

lemma foldl_addRenderItem (ws : List W) :
    ∀ (k : Nat) (acc : List (RenderItemData W)),
      ws.foldl addRenderItem (k, acc) =
        (k + ws.length, acc ++ itemsFrom k ws gNumFrameResources) := by
  induction ws with
  | nil => intro k acc; simp [itemsFrom]
  | cons w ws ih =>
    intro k acc
    have hstep : addRenderItem (k, acc) w
        = (k + 1, acc ++ [⟨w, gNumFrameResources, k⟩]) := rfl
    rw [List.foldl_cons, hstep, ih (k + 1)]
    refine Prod.ext ?_ ?_
    · simp
      omega
    · simp [itemsFrom, List.enumFrom]

lemma buildRenderItems_eq (ws : List W) :
    BuildRenderItems ws = itemsFrom 0 ws gNumFrameResources := by
  unfold BuildRenderItems
  rw [foldl_addRenderItem]
  simp

lemma itemsFrom_map_index (k : Nat) (ws : List W) (d : Nat) :
    (itemsFrom k ws d).map RenderItemData.ObjCBIndex = List.range' k ws.length := by
  unfold itemsFrom
  rw [List.map_map]
  have : (RenderItemData.ObjCBIndex ∘ fun p : Nat × W =>
      ({ World := p.2, NumFramesDirty := d, ObjCBIndex := p.1 } : RenderItemData W))
      = Prod.fst := rfl
  rw [this]
  exact enumFrom_fst k ws

lemma itemsFrom_map_world (k : Nat) (ws : List W) (d : Nat) :
    (itemsFrom k ws d).map RenderItemData.World = ws := by
  induction ws generalizing k with
  | nil => rfl
  | cons w ws ih => simp [itemsFrom, List.enumFrom] at *; exact ih (k + 1)

/-- A descriptor created in the CBV heap `mCbvHeap`: a view of frame
resource `frameIndex`'s object constant buffer at slot `slot`
(byte offset `slot * objCBByteSize`), or of its pass constant buffer. -/
inductive Descriptor where
  | objCBV : (frameIndex : Nat) → (slot : Nat) → Descriptor
  | passCBV : (frameIndex : Nat) → Descriptor
  deriving DecidableEq, Repr

/-- Source line 422, `BuildDescriptorHeaps`: the heap holds
`(objCount + 1) * gNumFrameResources` descriptors. -/
def numDescriptors (objCount : Nat) : Nat := (objCount + 1) * gNumFrameResources

/-- Source line 425, `BuildDescriptorHeaps`:
`mPassCbvOffset = objCount * gNumFrameResources`. -/
def mPassCbvOffset (objCount : Nat) : Nat := objCount * gNumFrameResources

/-- A loop writing one descriptor per element of `l`: for each `j`, the
descriptor `val j` is created at heap index `key j`. -/
def heapWriteSeq {β : Type} (key : Nat → Nat) (val : Nat → β) (l : List Nat)
    (h0 : Nat → β) : Nat → β :=
  l.foldl (fun h j => Function.update h (key j) (val j)) h0

/-- Source lines 436-485, `BuildConstantBufferViews`: for each frame
resource and each object slot, create an object CBV at heap index
`frameIndex * objCount + i`; then for each frame resource create a pass
CBV at heap index `mPassCbvOffset + frameIndex`.  The heap is modelled as
a map from heap index to the descriptor created there (`none` where
nothing was created). -/
def BuildConstantBufferViews (objCount : Nat) : Nat → Option Descriptor :=
  let h0 : Nat → Option Descriptor := fun _ => none
  let h1 := (List.range gNumFrameResources).foldl (fun h frameIndex =>
    heapWriteSeq (fun i => frameIndex * objCount + i)
      (fun i => some (Descriptor.objCBV frameIndex i)) (List.range objCount) h) h0
  heapWriteSeq (fun frameIndex => mPassCbvOffset objCount + frameIndex)
    (fun frameIndex => some (Descriptor.passCBV frameIndex))
    (List.range gNumFrameResources) h1

/-- Source line 1186, `DrawRenderItems`: the heap index of the object CBV
bound for a render item:
`mCurrFrameResourceIndex * objCount + ri->ObjCBIndex`. -/
def drawObjCbvIndex (frameIndex objCount objCBIdx : Nat) : Nat :=
  frameIndex * objCount + objCBIdx

/-- Source line 266, `Draw`: the heap index of the pass CBV bound for the
frame: `mPassCbvOffset + mCurrFrameResourceIndex`. -/
def drawPassCbvIndex (objCount frameIndex : Nat) : Nat :=
  mPassCbvOffset objCount + frameIndex

lemma heapWriteSeq_skip {β : Type} (key : Nat → Nat) (val : Nat → β) (l : List Nat)
    (h0 : Nat → β) (k : Nat) (hk : ∀ j ∈ l, key j ≠ k) :
    heapWriteSeq key val l h0 k = h0 k := by
  induction l generalizing h0 with
  | nil => rfl
  | cons a rest ih =>
    show heapWriteSeq key val rest (Function.update h0 (key a) (val a)) k = h0 k
    rw [ih _ (fun j hj => hk j (List.mem_cons_of_mem a hj))]
    exact Function.update_noteq (fun h => hk a (List.mem_cons_self a rest) h.symm) _ _

lemma heapWriteSeq_hit {β : Type} (key : Nat → Nat) (val : Nat → β) (l : List Nat)
    (h0 : Nat → β) (j0 : Nat) (hj0 : j0 ∈ l)
    (huniq : ∀ j ∈ l, key j = key j0 → j = j0) :
    heapWriteSeq key val l h0 (key j0) = val j0 := by
  induction l generalizing h0 with
  | nil => cases hj0
  | cons a rest ih =>
    show heapWriteSeq key val rest (Function.update h0 (key a) (val a)) (key j0) = val j0
    by_cases hmem : j0 ∈ rest
    · exact ih _ hmem (fun j hj => huniq j (List.mem_cons_of_mem a hj))
    · have ha : a = j0 := by
        rcases List.mem_cons.mp hj0 with h | h
        · exact h.symm
        · exact absurd h hmem
      subst ha
      rw [heapWriteSeq_skip key val rest (Function.update h0 (key a) (val a)) (key a)
        (fun j hj hkey => absurd (huniq j (List.mem_cons_of_mem a hj) hkey ▸ hj) hmem)]
      exact Function.update_same _ _ _

lemma buildCBV_obj_lookup (n f r : Nat) (hf : f < gNumFrameResources) (hr : r < n) :
    BuildConstantBufferViews n (f * n + r) = some (Descriptor.objCBV f r) := by
  unfold gNumFrameResources at hf
  unfold BuildConstantBufferViews mPassCbvOffset gNumFrameResources
  rw [(by decide : List.range 3 = [0, 1, 2])]
  simp only [List.foldl_cons, List.foldl_nil]
  interval_cases f
  · rw [heapWriteSeq_skip _ _ _ _ _
      (by intro j hj; fin_cases hj <;> omega)]
    rw [heapWriteSeq_skip _ _ _ _ _
      (by intro j hj; rw [List.mem_range] at hj; omega)]
    rw [heapWriteSeq_skip _ _ _ _ _
      (by intro j hj; rw [List.mem_range] at hj; omega)]
    exact heapWriteSeq_hit _ _ _ _ r (List.mem_range.mpr hr)
      (by intro j hj hkey; rw [List.mem_range] at hj; omega)
  · rw [heapWriteSeq_skip _ _ _ _ _
      (by intro j hj; fin_cases hj <;> omega)]
    rw [heapWriteSeq_skip _ _ _ _ _
      (by intro j hj; rw [List.mem_range] at hj; omega)]
    exact heapWriteSeq_hit _ _ _ _ r (List.mem_range.mpr hr)
      (by intro j hj hkey; rw [List.mem_range] at hj; omega)
  · rw [heapWriteSeq_skip _ _ _ _ _
      (by intro j hj; fin_cases hj <;> omega)]
    exact heapWriteSeq_hit _ _ _ _ r (List.mem_range.mpr hr)
      (by intro j hj hkey; rw [List.mem_range] at hj; omega)

lemma buildCBV_pass_lookup (n f : Nat) (hf : f < gNumFrameResources) :
    BuildConstantBufferViews n (mPassCbvOffset n + f) = some (Descriptor.passCBV f) := by
  unfold gNumFrameResources at hf
  unfold BuildConstantBufferViews mPassCbvOffset gNumFrameResources
  rw [(by decide : List.range 3 = [0, 1, 2])]
  exact heapWriteSeq_hit _ _ _ _ f (by interval_cases f <;> decide)
    (by intro j hj hkey; fin_cases hj <;> omega)

/-- Claim C9: with `objCount = ws.length` render items, the `ObjCBIndex`
values assigned by `BuildRenderItems` are exactly `0 .. objCount - 1` in
order; for every frame index `f < 3` and item slot `r < objCount`, the
heap index `f * objCount + r` used by `DrawRenderItems` and the pass heap
index `mPassCbvOffset + f` used by `Draw` are both below the heap size
`(objCount + 1) * 3` allocated by `BuildDescriptorHeaps`, and each refers
to the descriptor `BuildConstantBufferViews` created there: the CBV of
frame resource `f`'s object constant buffer at slot `r`, respectively of
its pass constant buffer. -/
theorem descriptor_heap_indexing_consistent (ws : List W) (f r : Nat)
    (hf : f < gNumFrameResources) (hr : r < ws.length) :
    (BuildRenderItems ws).map RenderItemData.ObjCBIndex = List.range ws.length ∧
    drawObjCbvIndex f ws.length r < numDescriptors ws.length ∧
    BuildConstantBufferViews ws.length (drawObjCbvIndex f ws.length r)
      = some (Descriptor.objCBV f r) ∧
    drawPassCbvIndex ws.length f < numDescriptors ws.length ∧
    BuildConstantBufferViews ws.length (drawPassCbvIndex ws.length f)
      = some (Descriptor.passCBV f) := by
  refine ⟨?_, ?_, ?_, ?_, ?_⟩
  · rw [buildRenderItems_eq, itemsFrom_map_index, List.range_eq_range']
  · unfold drawObjCbvIndex numDescriptors gNumFrameResources at *
    interval_cases f <;> omega
  · exact buildCBV_obj_lookup ws.length f r hf hr
  · unfold drawPassCbvIndex mPassCbvOffset numDescriptors gNumFrameResources at *
    omega
  · exact buildCBV_pass_lookup ws.length f hf

/-- Claim C9 witness: two render items (`W = Unit` world matrices),
frame 2, item slot 1. -/
theorem descriptor_heap_indexing_consistent_witness :
    (2 < gNumFrameResources ∧ 1 < ([(), ()] : List Unit).length) ∧
    ((BuildRenderItems [(), ()]).map RenderItemData.ObjCBIndex
        = List.range ([(), ()] : List Unit).length ∧
     drawObjCbvIndex 2 ([(), ()] : List Unit).length 1
        < numDescriptors ([(), ()] : List Unit).length ∧
     BuildConstantBufferViews ([(), ()] : List Unit).length
        (drawObjCbvIndex 2 ([(), ()] : List Unit).length 1)
        = some (Descriptor.objCBV 2 1) ∧
     drawPassCbvIndex ([(), ()] : List Unit).length 2
        < numDescriptors ([(), ()] : List Unit).length ∧
     BuildConstantBufferViews ([(), ()] : List Unit).length
        (drawPassCbvIndex ([(), ()] : List Unit).length 2)
        = some (Descriptor.passCBV 2)) :=
  ⟨⟨by decide, by decide⟩,
   descriptor_heap_indexing_consistent [(), ()] 2 1 (by decide) (by decide)⟩

/-- `itemsFrom` unfolds one item at a time. -/
lemma itemsFrom_cons (k : Nat) (w : W) (ws : List W) (d : Nat) :
    itemsFrom k (w :: ws) d
      = { World := w, NumFramesDirty := d, ObjCBIndex := k } :: itemsFrom (k + 1) ws d := rfl

lemma itemsFrom_dirty (k : Nat) (ws : List W) (d : Nat) :
    ∀ e ∈ itemsFrom k ws d, e.NumFramesDirty = d := by
  intro e he
  unfold itemsFrom at he
  rcases List.mem_map.mp he with ⟨p, hp, rfl⟩
  rfl

/-- Source lines 366-386, `ShapesApp::UpdateObjectCBs`: for each render
item of `mAllRitems` in order, if `NumFramesDirty > 0`, copy its world
matrix into the current frame resource's object constant buffer at slot
`ObjCBIndex` (`currObjectCB->CopyData(e->ObjCBIndex, objConstants)`; the
buffer stores the transposed matrix, a content recoding that the claims
do not depend on, so the matrix itself is stored) and decrement the
counter.  Returns the updated items, the updated buffer, and the list of
slots written, in order. -/
def UpdateObjectCBs : List (RenderItemData W) → (Nat → Option W) →
    List (RenderItemData W) × (Nat → Option W) × List Nat
  | [], cb => ([], cb, [])
  | e :: rest, cb =>
    if e.NumFramesDirty > 0 then
      let r := UpdateObjectCBs rest (Function.update cb e.ObjCBIndex (some e.World))
      ({ e with NumFramesDirty := e.NumFramesDirty - 1 } :: r.1, r.2.1, e.ObjCBIndex :: r.2.2)
    else
      let r := UpdateObjectCBs rest cb
      (e :: r.1, r.2.1, r.2.2)

/-- One `Update` call's effect on the object constant buffers: the items
are processed against frame resource `f`'s buffer
(`mCurrFrameResource->ObjectCB`); the other frame resources' buffers are
untouched. -/
def updateFrameObjectCBs (f : Nat) (items : List (RenderItemData W))
    (cbs : Nat → Nat → Option W) :
    List (RenderItemData W) × (Nat → Nat → Option W) × List Nat :=
  let r := UpdateObjectCBs items (cbs f)
  (r.1, Function.update cbs f r.2.1, r.2.2)

lemma updateObjectCBs_pos (ws : List W) (k d : Nat) (cb : Nat → Option W) (hd : 0 < d) :
    UpdateObjectCBs (itemsFrom k ws d) cb =
      (itemsFrom k ws (d - 1),
       fun i => if k ≤ i ∧ i < k + ws.length then ws.get? (i - k) else cb i,
       List.range' k ws.length) := by
  induction ws generalizing k cb with
  | nil =>
    refine Prod.ext rfl (Prod.ext ?_ rfl)
    funext i
    show cb i = if k ≤ i ∧ i < k + ([] : List W).length then ([] : List W).get? (i - k) else cb i
    rw [if_neg (by simp <;> omega)]
  | cons w ws ih =>
    rw [itemsFrom_cons, itemsFrom_cons]
    show UpdateObjectCBs (_ :: itemsFrom (k + 1) ws d) cb = _
    rw [UpdateObjectCBs]
    rw [if_pos (by simpa using hd)]
    rw [ih (k + 1) _]
    refine Prod.ext rfl (Prod.ext ?_ ?_)
    · funext i
      show (if k + 1 ≤ i ∧ i < k + 1 + ws.length then ws.get? (i - (k + 1))
          else Function.update cb k (some w) i)
        = if k ≤ i ∧ i < k + (w :: ws).length then (w :: ws).get? (i - k) else cb i
      by_cases h1 : i = k
      · subst h1
        rw [if_neg (by omega), if_pos (by simp), Function.update_same]
        simp
      · by_cases h2 : k + 1 ≤ i ∧ i < k + 1 + ws.length
        · rw [if_pos h2, if_pos (by simp <;> omega)]
          have h3 : i - k = (i - (k + 1)) + 1 := by omega
          rw [h3, List.get?_cons_succ]
        · rw [if_neg h2, if_neg (by simp; omega), Function.update_noteq h1]
    · show k :: List.range' (k + 1) ws.length = List.range' k (w :: ws).length
      simp [List.range'_succ]

lemma updateObjectCBs_zero (ws : List W) (k : Nat) (cb : Nat → Option W) :
    UpdateObjectCBs (itemsFrom k ws 0) cb = (itemsFrom k ws 0, cb, []) := by
  induction ws generalizing k with
  | nil => rfl
  | cons w ws ih =>
    rw [itemsFrom_cons]
    show UpdateObjectCBs (_ :: itemsFrom (k + 1) ws 0) cb = _
    rw [UpdateObjectCBs]
    rw [if_neg (by simp)]
    rw [ih (k + 1)]

/-- The first three render-loop iterations' `UpdateObjectCBs` calls: the
frame-resource index starts at 0 and each `Update` advances it first, so
the calls hit frame resources 1, 2, 0.  Returns the items and the
per-frame object constant buffers after the three calls, together with
the three write logs. -/
def runThreeUpdates (ws : List W) :
    List (RenderItemData W) × (Nat → Nat → Option W) × (List Nat × List Nat × List Nat) :=
  let items0 := BuildRenderItems ws
  let cbs0 : Nat → Nat → Option W := fun _ _ => none
  let r1 := updateFrameObjectCBs 1 items0 cbs0
  let r2 := updateFrameObjectCBs 2 r1.1 r1.2.1
  let r3 := updateFrameObjectCBs 0 r2.1 r2.2.1
  (r3.1, r3.2.1, (r1.2.2, r2.2.2, r3.2.2))

/-- Claim C10: every render item is created with `NumFramesDirty = 3`;
over the first three render-loop iterations (which use frame resources
1, 2, 0), each `UpdateObjectCBs` call copies every item's world matrix
into the current frame resource's buffer exactly once (each call's write
log is exactly the slots `0 .. n-1`, once per item) and decrements the
counters; afterwards every counter is 0 and stays 0, every frame
resource's buffer holds every item's world matrix at its `ObjCBIndex`,
the items' world matrices are unchanged, and any further
`UpdateObjectCBs` call writes nothing and leaves items and buffers
unchanged. -/
theorem object_cb_dirty_protocol (ws : List W) :
    (∀ e ∈ BuildRenderItems ws, e.NumFramesDirty = gNumFrameResources) ∧
    (runThreeUpdates ws).2.2.1 = List.range ws.length ∧
    (runThreeUpdates ws).2.2.2.1 = List.range ws.length ∧
    (runThreeUpdates ws).2.2.2.2 = List.range ws.length ∧
    (∀ e ∈ (runThreeUpdates ws).1, e.NumFramesDirty = 0) ∧
    (runThreeUpdates ws).1.map RenderItemData.World = ws ∧
    (runThreeUpdates ws).1.map RenderItemData.ObjCBIndex = List.range ws.length ∧
    (∀ f, f < gNumFrameResources → ∀ i, i < ws.length →
      (runThreeUpdates ws).2.1 f i = ws.get? i) ∧
    (∀ f, updateFrameObjectCBs f (runThreeUpdates ws).1 (runThreeUpdates ws).2.1
      = ((runThreeUpdates ws).1, (runThreeUpdates ws).2.1, [])) := by
  unfold runThreeUpdates updateFrameObjectCBs
  dsimp only
  rw [buildRenderItems_eq]
  rw [updateObjectCBs_pos ws 0 gNumFrameResources _ (by decide)]
  dsimp only
  rw [updateObjectCBs_pos ws 0 (gNumFrameResources - 1) _ (by decide)]
  dsimp only
  rw [updateObjectCBs_pos ws 0 (gNumFrameResources - 1 - 1) _ (by decide)]
  dsimp only
  refine ⟨?_, ?_, ?_, ?_, ?_, ?_, ?_, ?_, ?_⟩
  · exact itemsFrom_dirty 0 ws gNumFrameResources
  · rw [List.range_eq_range']
  · rw [List.range_eq_range']
  · rw [List.range_eq_range']
  · intro e he
    exact (itemsFrom_dirty 0 ws _ e he).trans (by decide)
  · exact itemsFrom_map_world 0 ws _
  · rw [itemsFrom_map_index, List.range_eq_range']
  · intro f hf i hi
    unfold gNumFrameResources at hf
    interval_cases f
    · rw [Function.update_same]
      rw [if_pos (by omega)]
      simp
    · rw [Function.update_noteq (by decide), Function.update_noteq (by decide),
        Function.update_same]
      rw [if_pos (by omega)]
      simp
    · rw [Function.update_noteq (by decide), Function.update_same]
      rw [if_pos (by omega)]
      simp
  · intro f
    rw [show gNumFrameResources - 1 - 1 - 1 = 0 from rfl]
    rw [updateObjectCBs_zero]
    dsimp only
    rw [Function.update_eq_self]

/-! ## Error handling (`ThrowIfFailed` / `WinMain`, claim C8)

A graphics-API call is abstracted by whether it fails, supplied by an
environment `env : Nat → Bool` indexed by call site (`true` = the call's
`HRESULT` indicates failure). -/

/-- The single exception kind of the sample,
`DxException` (`Common/d3dUtil.h`). -/
inductive DxException where
  | mk : DxException
  deriving DecidableEq, Repr

/-- Modelled from the spec: `ThrowIfFailed` (`Common/d3dUtil.h`, not under
`src/`) — "every graphics-API call is wrapped to raise immediately on
failure": if the wrapped call's `HRESULT` failed, throw `DxException`. -/
def ThrowIfFailed (failed : Bool) : Except DxException Unit :=
  if failed then Except.error DxException.mk else Except.ok ()

/-- Source lines 228-295, `ShapesApp::Draw`, restricted to its
`HRESULT`-returning graphics-API calls in program order:
call 0 `cmdListAlloc->Reset()` (line 234, wrapped);
call 1 `mCommandList->Reset(...)` (line 240 or 244 depending on
`mIsWireframe`, both branches wrapped);
call 2 `mCommandList->Close()` (line 278, wrapped);
call 3 `mSwapChain->Present(0, 0)` (line 285, wrapped);
call 4 `mCommandQueue->Signal(mFence.Get(), mCurrentFence)` (line 294,
its `HRESULT` is discarded). -/
def DrawHr (env : Nat → Bool) (isWireframe : Bool) : Except DxException Unit := do
  ThrowIfFailed (env 0)
  if isWireframe then ThrowIfFailed (env 1) else ThrowIfFailed (env 1)
  ThrowIfFailed (env 2)
  ThrowIfFailed (env 3)
  let _hrSignal := env 4
  pure ()

/-- Source lines 134-155, `WinMain`: the app runs under `try`/`catch`;
a thrown `DxException` is caught, displayed in a message box, and the
process exits with 0.  Result: (exit code, whether the message box was
shown). -/
def WinMain (run : Except DxException Int) : Int × Bool :=
  match run with
  | Except.error _ => (0, true)
  | Except.ok r => (r, false)

/-- Claim C8 counterexample: in the environment where exactly the
`Signal` call (call 4) fails, `Draw` still completes with `ok` — a
failing graphics-API call whose error is silently discarded.  Hence it is
false that `Draw` can only succeed when every one of its graphics-API
calls succeeded, i.e. not every graphics-API call is wrapped to raise on
failure. -/
theorem signal_failure_silently_discarded :
    DrawHr (fun k => k == 4) false = Except.ok () ∧
    (fun k => k == 4) 4 = true ∧
    ¬ (∀ (env : Nat → Bool) (wire : Bool), DrawHr env wire = Except.ok () →
        ∀ k, k ≤ 4 → env k = false) := by
  refine ⟨rfl, rfl, fun h => ?_⟩
  have h4 := h (fun k => k == 4) false rfl 4 (Nat.le_refl 4)
  simp at h4

/-- Claim C8 (amended): every `HRESULT`-returning graphics-API call in
`Draw` except the final `Signal` is wrapped in `ThrowIfFailed`, which
raises exactly on failure, so `Draw` succeeds iff calls 0-3 all succeed
(whatever the `Signal` outcome); and `WinMain` catches the single error
kind `DxException`, shows the message box and exits with code 0. -/
theorem wrapped_calls_raise_and_winmain_catches (env : Nat → Bool) (wire : Bool) :
    (DrawHr env wire = Except.ok () ↔
      env 0 = false ∧ env 1 = false ∧ env 2 = false ∧ env 3 = false) ∧
    (∀ failed, ThrowIfFailed failed = Except.error DxException.mk ↔ failed = true) ∧
    (∀ e, WinMain (Except.error e) = (0, true)) ∧
    (∀ r, WinMain (Except.ok r) = (r, false)) := by
  refine ⟨?_, ?_, ?_, ?_⟩
  · cases h0 : env 0 <;> cases h1 : env 1 <;> cases h2 : env 2 <;> cases h3 : env 3 <;>
      cases wire <;> simp [DrawHr, ThrowIfFailed, Bind.bind, Except.bind, Pure.pure,
        Except.pure, h0, h1, h2, h3]
  · intro failed
    cases failed <;> simp [ThrowIfFailed]
  · intro e
    rfl
  · intro r
    rfl

end ShapesApp
